import Mathlib

/-!
Verification development for the EcoPlate repository.

The definitions below are a shallow embedding of the gamification layer
(`gamification-service` / `badge-service`), the file-validation and distance
utilities, and the vending-machine UI hook.  Database tables are embedded as
Lean lists of rows; stateful service functions become explicit state-passing
functions on a `Db` record; SQLite integers become `Int`/`Nat` and `REAL`
columns become `ℚ`.  The reserve API call of the vending machine is embedded
as a boolean parameter giving the call's outcome, and database errors are
embedded as a `DbError` value (the source discriminates them by substring
matching on the message; here `DbError.uniqueViolation` stands for a message
containing "UNIQUE constraint failed" or "SQLITE_CONSTRAINT").
-/

namespace EcoPlate

/-! ## Data model (db/schema.ts and the test-database DDL) -/

/-- Row of the `user_points` table: `user_id`, `total_points`,
`current_streak`, `total_co2_saved`. -/
structure UserPoints where
  userId : Nat
  totalPoints : Int
  currentStreak : Int
  totalCo2Saved : ℚ
deriving DecidableEq, Repr

/-- Row of the `product_sustainability_metrics` table.  Dates are embedded as
day numbers (`todayDate`). -/
structure Interaction where
  productId : Option Nat
  userId : Nat
  todayDate : Nat
  quantity : ℚ
  type : String
deriving DecidableEq, Repr

/-- Row of the `badges` table. -/
structure BadgeRow where
  id : Nat
  code : String
  name : String
  description : String
  category : String
  pointsAwarded : Int
  sortOrder : Nat
deriving DecidableEq, Repr

/-- Row of the `user_badges` table (with its UNIQUE(user_id, badge_id)
constraint enforced by `insertUserBadge` below). -/
structure UserBadge where
  userId : Nat
  badgeId : Nat
deriving DecidableEq, Repr

/-- The embedded database: each field is one table, as a list of rows. -/
structure Db where
  userPoints : List UserPoints
  badges : List BadgeRow
  userBadges : List UserBadge
  metrics : List Interaction
deriving DecidableEq, Repr

/-- Total points of a user, 0 when the user has no `user_points` row
(mirrors the `?? 0` reads in the services). -/
def pointsOfList (l : List UserPoints) (uid : Nat) : Int :=
  match l.find? (fun up => up.userId == uid) with
  | some up => up.totalPoints
  | none => 0

def totalPointsOf (db : Db) (uid : Nat) : Int :=
  pointsOfList db.userPoints uid

/-- Current streak of a user, 0 when the user has no `user_points` row. -/
def streakOfList (l : List UserPoints) (uid : Nat) : Int :=
  match l.find? (fun up => up.userId == uid) with
  | some up => up.currentStreak
  | none => 0

def currentStreakOf (db : Db) (uid : Nat) : Int :=
  streakOfList db.userPoints uid

/-! ## gamification-service: POINT_VALUES, getOrCreateUserPoints, awardPoints -/

/-- The four point-bearing actions. -/
inductive PAction where
  | consumed
  | shared
  | sold
  | wasted
deriving DecidableEq, Repr

/-- The `type` string that `awardPoints` records for an action. -/
def actionType : PAction → String
  | .consumed => "consumed"
  | .shared => "shared"
  | .sold => "sold"
  | .wasted => "wasted"

/-- `POINT_VALUES = { consumed: 5, shared: 10, sold: 8, wasted: -3 }`. -/
def POINT_VALUES : PAction → Int
  | .consumed => 5
  | .shared => 10
  | .sold => 8
  | .wasted => -3

/-- `getOrCreateUserPoints`: return the existing `user_points` row, or insert
one with the column defaults (0 points, 0 streak, 0 CO2). -/
def getOrCreateUserPoints (db : Db) (uid : Nat) : UserPoints × Db :=
  match db.userPoints.find? (fun up => up.userId == uid) with
  | some p => (p, db)
  | none =>
    let created : UserPoints := ⟨uid, 0, 0, 0⟩
    (created, { db with userPoints := db.userPoints ++ [created] })

/-- `db.update(userPoints).set({ totalPoints: t }).where(userId = uid)`. -/
def setTotalPoints (db : Db) (uid : Nat) (t : Int) : Db :=
  { db with
    userPoints := db.userPoints.map
      (fun up => if up.userId == uid then { up with totalPoints := t } else up) }

/-- `db.update(userPoints).set({ totalCo2Saved: v }).where(userId = uid)`. -/
def setTotalCo2 (db : Db) (uid : Nat) (v : ℚ) : Db :=
  { db with
    userPoints := db.userPoints.map
      (fun up => if up.userId == uid then { up with totalCo2Saved := v } else up) }

/-- `listingData` argument of `awardPoints`. -/
structure ListingData where
  co2Saved : Option ℚ
  buyerId : Option Nat
deriving DecidableEq, Repr

/-- Return value of `awardPoints`. -/
structure AwardResult where
  action : PAction
  amount : Int
  newTotal : Int
  co2Saved : Option ℚ
deriving DecidableEq, Repr

/-- The CO2 block of `awardPoints`: runs only for a `sold` action with a
truthy `listingData.co2Saved`; credits the seller's stale read `up` and then
the buyer (creating the buyer's row if needed). -/
def awardCo2 (db : Db) (uid : Nat) (up : UserPoints) (a : PAction)
    (listingData : Option ListingData) : Option ℚ × Db :=
  match a, listingData with
  | .sold, some ld =>
    match ld.co2Saved with
    | some c =>
      if c == 0 then (none, db)
      else
        let db1 := setTotalCo2 db uid (up.totalCo2Saved + c)
        match ld.buyerId with
        | some buyer =>
          let g := getOrCreateUserPoints db1 buyer
          (some c, setTotalCo2 g.2 buyer (g.1.totalCo2Saved + c))
        | none => (some c, db1)
    | none => (none, db)
  | _, _ => (none, db)

/-- `awardPoints(userId, action, productId?, quantity?, listingData?)` from
gamification-service: clamp the new total at zero, write it back, record one
`product_sustainability_metrics` row (quantity defaulting to 1), and handle
CO2 for sold items.  `today` is the day number the source takes from
`new Date()`. -/
def awardPoints (db : Db) (uid : Nat) (a : PAction) (productId : Option Nat)
    (quantity : Option ℚ) (listingData : Option ListingData) (today : Nat) :
    AwardResult × Db :=
  let amount := POINT_VALUES a
  let g := getOrCreateUserPoints db uid
  let up := g.1
  let db1 := g.2
  let newTotal := max 0 (up.totalPoints + amount)
  let db2 := setTotalPoints db1 uid newTotal
  let db3 := { db2 with
    metrics := db2.metrics ++ [⟨productId, uid, today, quantity.getD 1, actionType a⟩] }
  let co2db := awardCo2 db3 uid up a listingData
  ({ action := a, amount := amount, newTotal := newTotal, co2Saved := co2db.1 }, co2db.2)

/-! ## badge-service: metrics, BADGE_DEFINITIONS, checkAndAwardBadges -/

/-- The aggregated counters `getUserBadgeMetrics` computes. -/
structure BadgeMetrics where
  totalPoints : Int
  currentStreak : Int
  longestStreak : Int
  totalConsumed : Nat
  totalWasted : Nat
  totalShared : Nat
  totalSold : Nat
  totalActions : Nat
  totalItems : Nat
  wasteReductionRate : ℚ
deriving DecidableEq, Repr

/-- ASCII lower-casing, the effect of JavaScript `toLowerCase()` on the
ASCII type/extension strings this code handles. -/
def lowerAscii (s : String) : String :=
  String.mk (s.data.map (fun c => if c.isUpper then Char.ofNat (c.toNat + 32) else c))

/-- One pass of the counting loop of `getUserBadgeMetrics`: case-insensitive
match of the interaction `type` ("consumed"/"consume", "wasted"/"waste",
"shared", "sold"); counts are (consumed, wasted, shared, sold). -/
def countInteraction (acc : Nat × Nat × Nat × Nat) (r : Interaction) :
    Nat × Nat × Nat × Nat :=
  let t := lowerAscii r.type
  let (c, w, s, so) := acc
  if t == "consumed" || t == "consume" then (c + 1, w, s, so)
  else if t == "wasted" || t == "waste" then (c, w + 1, s, so)
  else if t == "shared" then (c, w, s + 1, so)
  else if t == "sold" then (c, w, s, so + 1)
  else acc

/-- `getUserBadgeMetrics(db, userId)`: aggregate the user's
`product_sustainability_metrics` rows and `user_points` row. -/
def getUserBadgeMetrics (db : Db) (uid : Nat) : BadgeMetrics :=
  let interactions := db.metrics.filter (fun r => r.userId == uid)
  let counts := interactions.foldl countInteraction (0, 0, 0, 0)
  let c := counts.1
  let w := counts.2.1
  let s := counts.2.2.1
  let so := counts.2.2.2
  let totalActions := c + s + so
  let totalItems := totalActions + w
  let rate : ℚ := if 0 < totalItems then ((totalActions : ℚ) / (totalItems : ℚ)) * 100 else 0
  { totalPoints := totalPointsOf db uid
    currentStreak := currentStreakOf db uid
    longestStreak := 0
    totalConsumed := c
    totalWasted := w
    totalShared := s
    totalSold := so
    totalActions := totalActions
    totalItems := totalItems
    wasteReductionRate := rate }

/-- The threshold predicates of `BADGE_DEFINITIONS`, as first-order data; the
source writes them as lambdas over the metrics record. -/
inductive Cond where
  | geActions (n : Nat)
  | geConsumed (n : Nat)
  | geSold (n : Nat)
  | rateItems (r : ℚ) (n : Nat)
deriving DecidableEq, Repr

/-- Evaluate a threshold predicate on the aggregated counters. -/
def evalCond : Cond → BadgeMetrics → Bool
  | .geActions n, m => n ≤ m.totalActions
  | .geConsumed n, m => n ≤ m.totalConsumed
  | .geSold n, m => n ≤ m.totalSold
  | .rateItems r n, m => r ≤ m.wasteReductionRate && n ≤ m.totalItems

/-- One entry of `BADGE_DEFINITIONS` (the `progress` closures are not needed
by any claim and are omitted). -/
structure BadgeDef where
  code : String
  name : String
  description : String
  category : String
  pointsAwarded : Int
  sortOrder : Nat
  cond : Cond
deriving DecidableEq, Repr

/-- The `BADGE_DEFINITIONS` table. -/
def BADGE_DEFINITIONS : List BadgeDef :=
  [ { code := "first_action", name := "First Steps",
      description := "Complete your first sustainability action",
      category := "milestones", pointsAwarded := 25, sortOrder := 1,
      cond := .geActions 1 },
    { code := "eco_starter", name := "Eco Starter",
      description := "Complete 10 sustainability actions",
      category := "milestones", pointsAwarded := 50, sortOrder := 2,
      cond := .geActions 10 },
    { code := "first_consume", name := "Clean Plate",
      description := "Consume your first item",
      category := "waste-reduction", pointsAwarded := 25, sortOrder := 5,
      cond := .geConsumed 1 },
    { code := "waste_warrior", name := "Waste Warrior",
      description := "80%+ waste reduction rate (min 20 items)",
      category := "waste-reduction", pointsAwarded := 100, sortOrder := 7,
      cond := .rateItems 80 20 },
    { code := "first_sale", name := "First Sale",
      description := "Sell your first marketplace item",
      category := "sharing", pointsAwarded := 25, sortOrder := 9,
      cond := .geSold 1 } ]

/-- A newly awarded badge, as `checkAndAwardBadges` returns it. -/
structure Awarded where
  code : String
  name : String
  pointsAwarded : Int
deriving DecidableEq, Repr

/-- Database errors, as the badge service distinguishes them:
`uniqueViolation` stands for a message containing "UNIQUE constraint failed"
or "SQLITE_CONSTRAINT"; `other` is any other error message. -/
inductive DbError where
  | uniqueViolation
  | other (msg : String)
deriving DecidableEq, Repr

/-- The `errorMessage.includes(...)` test of the catch block. -/
def isUniqueErr : DbError → Bool
  | .uniqueViolation => true
  | .other _ => false

/-- Whether a `user_badges` row for (uid, bid) exists. -/
def userHasBadge (db : Db) (uid bid : Nat) : Bool :=
  db.userBadges.any (fun ub => ub.userId == uid && ub.badgeId == bid)

/-- The badge ids the user has earned, as read before the award loop. -/
def earnedList (db : Db) (uid : Nat) : List Nat :=
  (db.userBadges.filter (fun ub => ub.userId == uid)).map (fun ub => ub.badgeId)

/-- The body of the try block after a successful insert: add the
`user_badges` row and, when the badge carries a positive bonus, re-read the
user's points row and add the bonus. -/
def applyAward (db : Db) (uid : Nat) (b : BadgeRow) : Db :=
  let db1 := { db with userBadges := db.userBadges ++ [⟨uid, b.id⟩] }
  if 0 < b.pointsAwarded then
    match db1.userPoints.find? (fun up => up.userId == uid) with
    | some up => setTotalPoints db1 uid (up.totalPoints + b.pointsAwarded)
    | none => db1
  else db1

/-- The award loop of `checkAndAwardBadges`.  `metrics`, `badges` (the badge
catalog read into `badgeByCode`) and `earned` are computed once before the
loop, as in the source; `db` is threaded through the inserts and point
updates.  `inj` is the fault model for the database insert: `inj k` is an
error thrown by the k-th insert attempt (`none` for a normal insert, which
then fails with a unique violation exactly when the row already exists).
The catch block skips the badge on a unique violation and re-throws
anything else. -/
def awardLoop (uid : Nat) (metrics : BadgeMetrics) (badges : List BadgeRow)
    (earned : List Nat) : List BadgeDef → Db → Nat → (Nat → Option DbError) →
    Except DbError (List Awarded × Db)
  | [], db, _, _ => .ok ([], db)
  | d :: rest, db, k, inj =>
    match badges.find? (fun b => b.code == d.code) with
    | none => awardLoop uid metrics badges earned rest db k inj
    | some b =>
      if earned.contains b.id then awardLoop uid metrics badges earned rest db k inj
      else if !(evalCond d.cond metrics) then awardLoop uid metrics badges earned rest db k inj
      else
        match inj k with
        | some e =>
          if isUniqueErr e then awardLoop uid metrics badges earned rest db (k + 1) inj
          else .error e
        | none =>
          if userHasBadge db uid b.id then
            awardLoop uid metrics badges earned rest db (k + 1) inj
          else
            match awardLoop uid metrics badges earned rest (applyAward db uid b) (k + 1) inj with
            | .ok (lst, dbF) =>
              .ok ({ code := d.code, name := d.name, pointsAwarded := b.pointsAwarded } :: lst, dbF)
            | .error e => .error e

/-- `checkAndAwardBadges` with the insert fault model exposed. -/
def checkAndAwardBadgesWith (inj : Nat → Option DbError) (db : Db) (uid : Nat) :
    Except DbError (List Awarded × Db) :=
  awardLoop uid (getUserBadgeMetrics db uid) db.badges (earnedList db uid)
    BADGE_DEFINITIONS db 0 inj

/-- `checkAndAwardBadges(db, userId)`: the deterministic run (no injected
faults); `awardLoop_none_ok` below shows the fall-through default is never
taken. -/
def checkAndAwardBadges (db : Db) (uid : Nat) : List Awarded × Db :=
  match checkAndAwardBadgesWith (fun _ => none) db uid with
  | .ok r => r
  | .error _ => ([], db)

/-! ## file-utils (image validation) -/

/-- Modelled from the spec: `backend/src/utils/file-utils.ts` is not among the
provided sources (only its test file is); per the spec "image validation is a
magic-byte lookup table".  Allowed MIME types. -/
def ALLOWED_IMAGE_TYPES : List String :=
  ["image/jpeg", "image/png", "image/gif", "image/webp"]

/-- Modelled from the spec: allowed file extensions. -/
def ALLOWED_IMAGE_EXTENSIONS : List String :=
  ["jpg", "jpeg", "png", "gif", "webp"]

/-- Check that the bytes of `pat` appear in `buf` starting at offset `off`
(false whenever the buffer is too short). -/
def matchBytes (buf : List Nat) : Nat → List Nat → Bool
  | _, [] => true
  | off, x :: rest =>
    match buf.get? off with
    | some y => y == x && matchBytes buf (off + 1) rest
    | none => false

def JPEG_SIG : List Nat := [0xFF, 0xD8, 0xFF]

def PNG_SIG : List Nat := [0x89, 0x50, 0x4E, 0x47]

def GIF_SIG : List Nat := [0x47, 0x49, 0x46, 0x38]

def RIFF_SIG : List Nat := [0x52, 0x49, 0x46, 0x46]

def WEBP_SIG : List Nat := [0x57, 0x45, 0x42, 0x50]

/-- Modelled from the spec: `validateImageMagicBytes(buffer)` — the
magic-byte lookup table.  JPEG is FF D8 FF, PNG is 89 50 4E 47, GIF is
47 49 46 38, WebP is RIFF at offset 0 plus WEBP at offset 8. -/
def validateImageMagicBytes (buf : List Nat) : Option String :=
  if matchBytes buf 0 JPEG_SIG then some ("jpeg")
  else if matchBytes buf 0 PNG_SIG then some ("png")
  else if matchBytes buf 0 GIF_SIG then some ("gif")
  else if matchBytes buf 0 RIFF_SIG && matchBytes buf 8 WEBP_SIG then some ("webp")
  else none

/-- Modelled from the spec: `getFileExtension` — lower-cased text after the
last dot, "bin" when there is no dot. -/
def getFileExtension (filename : String) : String :=
  let parts := filename.splitOn (".")
  if 1 < parts.length then lowerAscii ((parts.getLast?).getD ("")) else "bin"

def isAllowedImageMimeType (m : String) : Bool :=
  ALLOWED_IMAGE_TYPES.contains m

def isAllowedImageExtension (filename : String) : Bool :=
  ALLOWED_IMAGE_EXTENSIONS.contains (getFileExtension filename)

/-- The image format a MIME type declares. -/
def mimeFormat (m : String) : Option String :=
  if m == "image/jpeg" then some ("jpeg")
  else if m == "image/png" then some ("png")
  else if m == "image/gif" then some ("gif")
  else if m == "image/webp" then some ("webp")
  else none

/-- The image format a file extension declares (jpg and jpeg both mean
jpeg). -/
def extFormat (e : String) : Option String :=
  if e == "jpg" || e == "jpeg" then some ("jpeg")
  else if e == "png" then some ("png")
  else if e == "gif" then some ("gif")
  else if e == "webp" then some ("webp")
  else none

/-- A file as `validateImageFile` sees it: name, declared MIME type, size in
bytes, and content bytes. -/
structure ImgFile where
  name : String
  mime : String
  size : Nat
  bytes : List Nat
deriving DecidableEq, Repr

/-- Result record of `validateImageFile`. -/
structure ValidationResult where
  valid : Bool
  detectedType : Option String
  error : Option String
deriving DecidableEq, Repr

/-- Modelled from the spec: `validateImageFile(file, maxSize)` — accepts a
file only if it is within the size limit and its MIME type, extension and
detected magic bytes all agree on one allowed image format. -/
def validateImageFile (f : ImgFile) (maxSize : Nat) : ValidationResult :=
  if maxSize < f.size then
    ⟨false, none, some ("File size exceeds the allowed limit")⟩
  else if !(isAllowedImageMimeType f.mime) then
    ⟨false, none, some ("Only JPEG, PNG, GIF, and WebP images are allowed")⟩
  else if !(isAllowedImageExtension f.name) then
    ⟨false, none, some ("Invalid file extension")⟩
  else
    match validateImageMagicBytes f.bytes with
    | none => ⟨false, none, some ("File content does not match a supported image format")⟩
    | some t =>
      if mimeFormat f.mime == some t && extFormat (getFileExtension f.name) == some t then
        ⟨true, some t, none⟩
      else
        ⟨false, none, some ("File content does not match its declared type")⟩

/-! ## useVendingMachine (frontend hook) -/

/-- The `VendingStatus` union type. -/
inductive VendingStatus where
  | idle
  | selecting
  | paying
  | dispensing
  | complete
  | error
deriving DecidableEq, Repr

/-- Marketplace listing, restricted to the fields the vending-machine
operations read (`id`, `title`, `price`). -/
structure Listing where
  id : Nat
  title : String
  price : Option ℚ
deriving DecidableEq, Repr

/-- A stocked slot. -/
structure VendingProduct where
  slotCode : String
  listing : Listing
deriving DecidableEq, Repr

/-- The display messages, as a datatype carrying the same data the source
interpolates into its strings (decimal formatting is abstracted away). -/
inductive Msg where
  | welcome
  | emptySlot
  | productPrice (title : String) (price : ℚ)
  | enterCode (code : String)
  | codeMsg (code : String)
  | readyBalance (balance : ℚ)
  | insertMore (amount : ℚ)
  | balanceSelect (balance : ℚ)
  | noItemSelected
  | dispensingMsg
  | enjoyChange (change : ℚ)
  | enjoy
  | transactionFailed
  | returned (amount : ℚ)
deriving DecidableEq, Repr

/-- `VendingMachineState` (the `loading`/`error` fetch fields are kept as in
the source). -/
structure VendState where
  products : List VendingProduct
  loading : Bool
  error : Option String
  selectedSlot : Option String
  inputCode : String
  balance : ℚ
  status : VendingStatus
  displayMessage : Msg
  dispensedProduct : Option VendingProduct
deriving DecidableEq, Repr

/-- The `useState` initial state. -/
def initialVendState : VendState :=
  { products := [], loading := true, error := none, selectedSlot := none,
    inputCode := "", balance := 0, status := .idle, displayMessage := .welcome,
    dispensedProduct := none }

/-- `products.find(p => p.slotCode === state.selectedSlot)`. -/
def selectedProduct (s : VendState) : Option VendingProduct :=
  match s.selectedSlot with
  | some sl => s.products.find? (fun p => p.slotCode == sl)
  | none => none

/-- `selectSlot(slotCode)`: select a stocked slot, or show the empty-slot
error (the deferred 2-second reset to idle is a separate timeout and is not
part of this transition). -/
def selectSlot (s : VendState) (slotCode : String) : VendState :=
  match s.products.find? (fun p => p.slotCode == slotCode) with
  | some p =>
    { s with
      selectedSlot := some slotCode, inputCode := slotCode,
      status := .selecting,
      displayMessage := .productPrice p.listing.title (p.listing.price.getD 0) }
  | none =>
    { s with inputCode := slotCode, displayMessage := .emptySlot, status := .error }

/-- `pressKey(key)`: OK submits a 2-character code, C clears, any other key
is appended to the input code (truncated to 2 characters). -/
def pressKey (s : VendState) (key : String) : VendState :=
  if key == "OK" then
    if 2 ≤ s.inputCode.length then selectSlot s s.inputCode else s
  else if key == "C" then
    { s with
      inputCode := "", selectedSlot := none, status := .idle,
      displayMessage := .welcome }
  else
    let newCode := (s.inputCode ++ key).take 2
    { s with
      inputCode := newCode,
      displayMessage := if newCode.length < 2 then .enterCode newCode else .codeMsg newCode }

/-- `insertCoin(amount)`: add to the balance; with a selection both the
paid-enough and the insert-more branches set status `paying`. -/
def insertCoin (s : VendState) (amount : ℚ) : VendState :=
  let newBalance := s.balance + amount
  match selectedProduct s with
  | some p =>
    let price := p.listing.price.getD 0
    if price ≤ newBalance then
      { s with
        balance := newBalance, status := .paying,
        displayMessage := .readyBalance newBalance }
    else
      { s with
        balance := newBalance, status := .paying,
        displayMessage := .insertMore (price - newBalance) }
  | none =>
    { s with balance := newBalance, displayMessage := .balanceSelect newBalance }

/-- `dispense()`: `reserveOk` is the outcome of the
`POST /marketplace/listings/:id/reserve` call.  Guards fail with status
`error` touching nothing else; a successful reserve clears the balance and
removes the product; a failed reserve keeps the balance and the slots and
sets status `error` (the deferred `setTimeout` resets are separate
transitions and are not part of this function). -/
def dispense (s : VendState) (reserveOk : Bool) : VendState :=
  match selectedProduct s with
  | none => { s with status := .error, displayMessage := .noItemSelected }
  | some p =>
    let price := p.listing.price.getD 0
    if s.balance < price then
      { s with status := .error, displayMessage := .insertMore (price - s.balance) }
    else
      let s1 := { s with
                  status := VendingStatus.dispensing,
                  displayMessage := Msg.dispensingMsg }
      if reserveOk then
        let change := s.balance - price
        { s1 with
          status := .complete,
          displayMessage := if 0 < change then .enjoyChange change else .enjoy,
          dispensedProduct := some p, balance := 0, selectedSlot := none,
          inputCode := "",
          products := s1.products.filter (fun q => !(q.slotCode == p.slotCode)) }
      else
        { s1 with status := .error, displayMessage := .transactionFailed }

/-- `returnCoins()`: refund a positive balance, keeping or dropping to
selecting/idle by whether a slot is selected. -/
def returnCoins (s : VendState) : VendState :=
  if 0 < s.balance then
    { s with
      balance := 0, displayMessage := .returned s.balance,
      status := if s.selectedSlot.isSome then .selecting else .idle }
  else s

/-- `reset()`. -/
def resetMachine (s : VendState) : VendState :=
  { s with
    selectedSlot := none, inputCode := "", balance := 0, status := .idle,
    displayMessage := .welcome, dispensedProduct := none }

/-! ## distance utility -/

/-- Latitude/longitude pair. -/
structure Coordinates where
  latitude : ℝ
  longitude : ℝ

/-- Degrees to radians. -/
noncomputable def toRadians (deg : ℝ) : ℝ := deg * Real.pi / 180

/-- The haversine of an angle, sin²(θ/2). -/
noncomputable def haversine (θ : ℝ) : ℝ := Real.sin (θ / 2) ^ 2

/-- Mean Earth radius in kilometres. -/
def EARTH_RADIUS_KM : ℝ := 6371

/-- Modelled from the spec: `backend/src/utils/distance.ts` is not among the
provided sources (only its test file is); per the spec "distance calculation
is a textbook haversine formula".  Great-circle distance in kilometres:
d = 2·R·arcsin(√(hav Δφ + cos φ₁ · cos φ₂ · hav Δλ)). -/
noncomputable def calculateDistance (a b : Coordinates) : ℝ :=
  let dLat := toRadians (b.latitude - a.latitude)
  let dLon := toRadians (b.longitude - a.longitude)
  let h := haversine dLat +
    Real.cos (toRadians a.latitude) * Real.cos (toRadians b.latitude) * haversine dLon
  2 * EARTH_RADIUS_KM * Real.arcsin (Real.sqrt h)

/-! ## streak maintenance -/

/-- Whether the user has a recorded sustainability metric on a given day. -/
def hasActivityOn (db : Db) (uid day : Nat) : Bool :=
  db.metrics.any (fun r => r.userId == uid && r.todayDate == day)

/-- `db.update(userPoints).set({ currentStreak: v }).where(userId = uid)`. -/
def setCurrentStreak (db : Db) (uid : Nat) (v : Int) : Db :=
  { db with
    userPoints := db.userPoints.map
      (fun up => if up.userId == uid then { up with currentStreak := v } else up) }

/-- Modelled from the spec: the streak-maintenance step of the gamification
layer ("points, badges, streaks"; "aggregates consumption events into points,
streaks, and badge progress").  The deployed `gamification-service.ts` is not
among the provided sources — only its simplified test double of
`awardPoints` (which does not touch the streak), the `user_points`
`current_streak` column, and frontend display code are.  Recording a
consumption event awards the points via `awardPoints` and then updates
`current_streak`: activity on the previous day extends the streak by one,
otherwise the streak restarts at one. -/
def recordConsumption (db : Db) (uid : Nat) (productId : Option Nat)
    (quantity : Option ℚ) (today : Nat) : AwardResult × Db :=
  let rdb := awardPoints db uid .consumed productId quantity none today
  let db1 := rdb.2
  let up := (db1.userPoints.find? (fun p => p.userId == uid)).getD ⟨uid, 0, 0, 0⟩
  let newStreak := if hasActivityOn db uid (today - 1) then up.currentStreak + 1 else 1
  (rdb.1, setCurrentStreak db1 uid newStreak)

/-! ## Derived notions used in the statements -/

/-- Whether the catalog badge matching a definition is already earned by the
user (false also when the definition has no catalog row). -/
def defEarned (db : Db) (uid : Nat) (d : BadgeDef) : Bool :=
  match db.badges.find? (fun b => b.code == d.code) with
  | some b => userHasBadge db uid b.id
  | none => false

/-- The awardability test the loop applies, over a fixed catalog, earned set
and metrics. -/
def defAwardablePure (badges : List BadgeRow) (earned : List Nat)
    (metrics : BadgeMetrics) (d : BadgeDef) : Bool :=
  match badges.find? (fun b => b.code == d.code) with
  | some b => !(earned.contains b.id) && evalCond d.cond metrics
  | none => false

/-- Sum of the positive `pointsAwarded` bonuses of a list of newly awarded
badges (only positive bonuses are credited by the loop). -/
def sumPosPoints (l : List Awarded) : Int :=
  l.foldr (fun a s => if 0 < a.pointsAwarded then a.pointsAwarded + s else s) 0

/-- One `awardPoints` call, as data. -/
structure AwardEvent where
  uid : Nat
  action : PAction
  productId : Option Nat
  quantity : Option ℚ
  listingData : Option ListingData
  today : Nat
deriving DecidableEq, Repr

/-- Run a sequence of `awardPoints` calls. -/
def applyEvents (evs : List AwardEvent) (db : Db) : Db :=
  evs.foldl
    (fun d e => (awardPoints d e.uid e.action e.productId e.quantity e.listingData e.today).2)
    db

/-- Fault model that fails only the first insert attempt. -/
def injOnce (e : DbError) : Nat → Option DbError :=
  fun k => if k == 0 then some e else none

/-! ## Concrete sample data for the closed instances -/

/-- The badge catalog as `seed.ts` inserts it (one row per definition). -/
def badgeCatalog : List BadgeRow :=
  [ ⟨1, "first_action", "First Steps", "Complete your first sustainability action",
      "milestones", 25, 1⟩,
    ⟨2, "eco_starter", "Eco Starter", "Complete 10 sustainability actions",
      "milestones", 50, 2⟩,
    ⟨3, "first_consume", "Clean Plate", "Consume your first item",
      "waste-reduction", 25, 5⟩,
    ⟨4, "waste_warrior", "Waste Warrior", "80%+ waste reduction rate (min 20 items)",
      "waste-reduction", 100, 7⟩,
    ⟨5, "first_sale", "First Sale", "Sell your first marketplace item",
      "sharing", 25, 9⟩ ]

/-- A database with the seeded catalog, one user with zero points, and one
consumed interaction. -/
def dbOneConsumed : Db :=
  { userPoints := [⟨1, 0, 0, 0⟩], badges := badgeCatalog, userBadges := [],
    metrics := [⟨none, 1, 0, 1, "consumed"⟩] }

/-- A database with one user at zero points and nothing else. -/
def dbZero : Db :=
  { userPoints := [⟨1, 0, 0, 0⟩], badges := [], userBadges := [], metrics := [] }

/-- A database where user 1 has 10 points, a 3-day streak, and activity on
day 4. -/
def dbStreak : Db :=
  { userPoints := [⟨1, 10, 3, 0⟩], badges := [], userBadges := [],
    metrics := [⟨none, 1, 4, 1, "consumed"⟩] }

/-- A one-entry badge-definition list and matching catalog row whose
condition holds on the zero metrics, for exercising the award loop. -/
def sampleDef : BadgeDef :=
  ⟨"b1", "B1", "", "cat", 10, 1, .geActions 0⟩

def sampleBadgeRow : BadgeRow :=
  ⟨1, "b1", "B1", "", "cat", 10, 1⟩

def metricsZero : BadgeMetrics :=
  ⟨0, 0, 0, 0, 0, 0, 0, 0, 0, 0⟩

def dbEmpty : Db := ⟨[], [], [], []⟩

/-- A stocked slot and a paying state with enough balance. -/
def vendProduct1 : VendingProduct := ⟨"A1", ⟨1, "Apple", some 2⟩⟩

def vendPaying : VendState :=
  { initialVendState with
    products := [vendProduct1], selectedSlot := some ("A1"), balance := 5,
    status := .paying }

/-! ## Theorems -/

/-- The haversine is even. -/
theorem haversine_neg (x : ℝ) : haversine (-x) = haversine x := by
  unfold haversine
  rw [neg_div, Real.sin_neg]
  ring

theorem toRadians_sub_comm (x y : ℝ) : toRadians (x - y) = -(toRadians (y - x)) := by
  unfold toRadians
  ring

/-- C3: calculateDistance is the haversine great-circle distance; it is zero
on equal coordinates, non-negative, and symmetric in its two arguments. -/
theorem calculateDistance_spec (p q : Coordinates) :
    calculateDistance p p = 0 ∧
    0 ≤ calculateDistance p q ∧
    calculateDistance p q = calculateDistance q p := by
  refine ⟨?_, ?_, ?_⟩
  · unfold calculateDistance
    simp [toRadians, haversine, Real.sqrt_zero, Real.arcsin_zero]
  · unfold calculateDistance
    have h1 : (0 : ℝ) ≤ 2 * EARTH_RADIUS_KM := by norm_num [EARTH_RADIUS_KM]
    have h2 := Real.arcsin_nonneg.2 (Real.sqrt_nonneg
      (haversine (toRadians (q.latitude - p.latitude)) +
        Real.cos (toRadians p.latitude) * Real.cos (toRadians q.latitude) *
          haversine (toRadians (q.longitude - p.longitude))))
    exact mul_nonneg h1 h2
  · have hl : haversine (toRadians (q.latitude - p.latitude)) =
        haversine (toRadians (p.latitude - q.latitude)) := by
      rw [toRadians_sub_comm, haversine_neg]
    have hn : haversine (toRadians (q.longitude - p.longitude)) =
        haversine (toRadians (p.longitude - q.longitude)) := by
      rw [toRadians_sub_comm, haversine_neg]
    unfold calculateDistance
    dsimp only
    rw [hl, hn, mul_comm (Real.cos (toRadians p.latitude)) (Real.cos (toRadians q.latitude))]

theorem matchBytes_cons_eq (buf : List Nat) (off x : Nat) (rest : List Nat) :
    matchBytes buf off (x :: rest) =
      (match buf.get? off with
       | some y => y == x && matchBytes buf (off + 1) rest
       | none => false) := rfl

theorem matchBytes_cons {buf : List Nat} {off x : Nat} {rest : List Nat} :
    matchBytes buf off (x :: rest) = true ↔
      buf.get? off = some x ∧ matchBytes buf (off + 1) rest = true := by
  rw [matchBytes_cons_eq]
  cases h : buf.get? off with
  | none => simp
  | some y => simp [Bool.and_eq_true, beq_iff_eq]

theorem matchBytes_length {buf : List Nat} :
    ∀ {pat : List Nat} {off : Nat}, pat ≠ [] → matchBytes buf off pat = true →
      off + pat.length ≤ buf.length := by
  intro pat
  induction pat with
  | nil => intro off h; exact absurd rfl h
  | cons x rest ih =>
    intro off _ h
    obtain ⟨hx, hrest⟩ := matchBytes_cons.1 h
    have hoff : off < buf.length := List.get?_eq_some.1 hx |>.1
    cases rest with
    | nil => simpa using hoff
    | cons y r =>
      have := ih (by simp) hrest
      simp only [List.length_cons] at this ⊢
      omega

theorem matchBytes_head {buf : List Nat} {x : Nat} {rest : List Nat}
    (h : matchBytes buf 0 (x :: rest) = true) : buf.get? 0 = some x :=
  (matchBytes_cons.1 h).1

theorem mimeFormat_mem {m t : String} (h : mimeFormat m = some t) :
    t ∈ ["jpeg", "png", "gif", "webp"] := by
  unfold mimeFormat at h
  split_ifs at h <;> simp_all

/-- C4: validateImageMagicBytes recognises each format exactly when its
magic-byte signature matches (so in particular every buffer shorter than
every signature yields none), and validateImageFile accepts a file only when
MIME type, extension and magic bytes agree on one allowed format. -/
theorem matchBytes_sig_disjoint {buf : List Nat} (s1 s2 : List Nat) (x1 x2 : Nat)
    (r1 r2 : List Nat) (e1 : s1 = x1 :: r1) (e2 : s2 = x2 :: r2) (hne : x1 ≠ x2)
    (h : matchBytes buf 0 s1 = true) : matchBytes buf 0 s2 = false := by
  cases hc : matchBytes buf 0 s2 with
  | false => rfl
  | true =>
    subst e1 e2
    have a1 := matchBytes_head h
    have a2 := matchBytes_head hc
    rw [a1] at a2
    exact absurd (Option.some.inj a2) hne

theorem matchBytes_false_of_short {buf : List Nat} (sig : List Nat) (hne : sig ≠ [])
    (hlen : buf.length < sig.length) : matchBytes buf 0 sig = false := by
  cases hc : matchBytes buf 0 sig with
  | false => rfl
  | true =>
    have hle := matchBytes_length hne hc
    omega

/-- C4: validateImageMagicBytes recognises each format exactly when its
magic-byte signature matches (so in particular every buffer shorter than
every signature yields none), and validateImageFile accepts a file only when
MIME type, extension and magic bytes agree on one allowed format. -/
theorem image_validation_spec (buf : List Nat) (f : ImgFile) (maxSize : Nat) :
    (validateImageMagicBytes buf = some ("jpeg") ↔ matchBytes buf 0 JPEG_SIG = true) ∧
    (validateImageMagicBytes buf = some ("png") ↔ matchBytes buf 0 PNG_SIG = true) ∧
    (validateImageMagicBytes buf = some ("gif") ↔ matchBytes buf 0 GIF_SIG = true) ∧
    (validateImageMagicBytes buf = some ("webp") ↔
      (matchBytes buf 0 RIFF_SIG = true ∧ matchBytes buf 8 WEBP_SIG = true)) ∧
    (buf.length < 3 → validateImageMagicBytes buf = none) ∧
    ((validateImageFile f maxSize).valid = true →
      ∃ t, validateImageMagicBytes f.bytes = some t ∧ mimeFormat f.mime = some t ∧
        extFormat (getFileExtension f.name) = some t ∧ t ∈ ["jpeg", "png", "gif", "webp"]) := by
  refine ⟨?_, ?_, ?_, ?_, ?_, ?_⟩
  · constructor
    · intro h
      unfold validateImageMagicBytes at h
      split_ifs at h with h1 h2 h3 h4
      · exact h1
      · exact absurd h (by decide)
      · exact absurd h (by decide)
      · exact absurd h (by decide)
    · intro h
      simp [validateImageMagicBytes, h]
  · constructor
    · intro h
      unfold validateImageMagicBytes at h
      split_ifs at h with h1 h2 h3 h4
      · exact absurd h (by decide)
      · exact h2
      · exact absurd h (by decide)
      · exact absurd h (by decide)
    · intro h
      have h1 := matchBytes_sig_disjoint PNG_SIG JPEG_SIG 0x89 0xFF _ _ rfl rfl (by decide) h
      simp [validateImageMagicBytes, h, h1]
  · constructor
    · intro h
      unfold validateImageMagicBytes at h
      split_ifs at h with h1 h2 h3 h4
      · exact absurd h (by decide)
      · exact absurd h (by decide)
      · exact h3
      · exact absurd h (by decide)
    · intro h
      have h1 := matchBytes_sig_disjoint GIF_SIG JPEG_SIG 0x47 0xFF _ _ rfl rfl (by decide) h
      have h2 := matchBytes_sig_disjoint GIF_SIG PNG_SIG 0x47 0x89 _ _ rfl rfl (by decide) h
      simp [validateImageMagicBytes, h, h1, h2]
  · constructor
    · intro h
      unfold validateImageMagicBytes at h
      split_ifs at h with h1 h2 h3 h4
      · exact absurd h (by decide)
      · exact absurd h (by decide)
      · exact absurd h (by decide)
      · rw [Bool.and_eq_true] at h4
        exact h4
    · intro h
      obtain ⟨hr, hw⟩ := h
      have h1 := matchBytes_sig_disjoint RIFF_SIG JPEG_SIG 0x52 0xFF _ _ rfl rfl (by decide) hr
      have h2 := matchBytes_sig_disjoint RIFF_SIG PNG_SIG 0x52 0x89 _ _ rfl rfl (by decide) hr
      have h3 := matchBytes_sig_disjoint RIFF_SIG GIF_SIG 0x52 0x47 _ _ rfl rfl (by decide) hr
      simp [validateImageMagicBytes, hr, hw, h1, h2, h3]
  · intro hlen
    have hj := @matchBytes_false_of_short buf JPEG_SIG (by decide) (by simp [JPEG_SIG]; omega)
    have hp := @matchBytes_false_of_short buf PNG_SIG (by decide) (by simp [PNG_SIG]; omega)
    have hg := @matchBytes_false_of_short buf GIF_SIG (by decide) (by simp [GIF_SIG]; omega)
    have hhr := @matchBytes_false_of_short buf RIFF_SIG (by decide) (by simp [RIFF_SIG]; omega)
    simp [validateImageMagicBytes, hj, hp, hg, hhr]
  · intro h
    unfold validateImageFile at h
    split_ifs at h with h1 h2 h3
    · cases hm : validateImageMagicBytes f.bytes with
      | none => rw [hm] at h; simp at h
      | some t =>
        rw [hm] at h
        dsimp only at h
        cases hb : (mimeFormat f.mime == some t &&
            extFormat (getFileExtension f.name) == some t) with
        | false => rw [hb] at h; simp at h
        | true =>
          have hb' := hb
          rw [Bool.and_eq_true] at hb'
          exact ⟨t, rfl, beq_iff_eq.1 hb'.1, beq_iff_eq.1 hb'.2,
            mimeFormat_mem (beq_iff_eq.1 hb'.1)⟩

/-- C4 witness: a two-byte buffer is shorter than every signature and is
rejected, by the short-buffer clause of `image_validation_spec`. -/
theorem image_validation_witness :
    ([0xFF, 0xD8] : List Nat).length < 3 ∧
      validateImageMagicBytes [0xFF, 0xD8] = none :=
  ⟨by decide,
    (image_validation_spec [0xFF, 0xD8] ⟨"x.jpg", "image/jpeg", 4, []⟩ 1024).2.2.2.2.1
      (by decide)⟩

/-- C10: dispense is atomic on failure — the no-selection and underpayment
guards change only the status and display message; a failed reserve call
keeps the balance and the slots and sets status error; the balance is
cleared and the product removed only on a successful dispense. -/
theorem dispense_atomic (s : VendState) (reserveOk : Bool) :
    (selectedProduct s = none →
      dispense s reserveOk =
        { s with status := VendingStatus.error, displayMessage := Msg.noItemSelected }) ∧
    (∀ p, selectedProduct s = some p → s.balance < p.listing.price.getD 0 →
      dispense s reserveOk =
        { s with
          status := VendingStatus.error,
          displayMessage := Msg.insertMore (p.listing.price.getD 0 - s.balance) }) ∧
    (∀ p, selectedProduct s = some p → ¬ s.balance < p.listing.price.getD 0 →
      dispense s false =
        { s with
          status := VendingStatus.error, displayMessage := Msg.transactionFailed }) ∧
    (∀ p, selectedProduct s = some p → ¬ s.balance < p.listing.price.getD 0 →
      dispense s true =
        { s with
          status := VendingStatus.complete,
          displayMessage := if 0 < s.balance - p.listing.price.getD 0 then
              Msg.enjoyChange (s.balance - p.listing.price.getD 0) else Msg.enjoy,
          dispensedProduct := some p, balance := 0, selectedSlot := none,
          inputCode := "",
          products := s.products.filter (fun q => !(q.slotCode == p.slotCode)) }) := by
  refine ⟨?_, ?_, ?_, ?_⟩
  · intro h
    simp [dispense, h]
  · intro p hp hlt
    simp [dispense, hp, hlt]
  · intro p hp hge
    simp [dispense, hp, hge]
  · intro p hp hge
    simp [dispense, hp, hge]

/-- C10 witness: in the concrete paying state, a failed reserve call leaves
the balance and the slots untouched and only flips status to error. -/
theorem dispense_atomic_witness :
    selectedProduct vendPaying = some vendProduct1 ∧
    ¬ vendPaying.balance < vendProduct1.listing.price.getD 0 ∧
    dispense vendPaying false =
      { vendPaying with
        status := VendingStatus.error, displayMessage := Msg.transactionFailed } :=
  ⟨by decide, by decide,
    (dispense_atomic vendPaying false).2.2.1 vendProduct1 (by decide) (by decide)⟩

/-- C5 counterexample: the vending status does branch outside the linear
chain — dispensing from the initial state (no selection) yields the status
"error", which is none of idle, selecting, paying, dispensing, complete. -/
theorem vending_linear_status_cex :
    (dispense initialVendState true).status = VendingStatus.error ∧
    (pressKey { initialVendState with status := VendingStatus.paying } ("C")).status
        = VendingStatus.idle ∧
    VendingStatus.error ∉ [VendingStatus.idle, VendingStatus.selecting,
      VendingStatus.paying, VendingStatus.dispensing, VendingStatus.complete] := by
  refine ⟨by decide, by decide, by decide⟩

/-- C5 (amended): the vending status field is not confined to a forward-only
linear chain: the guard failures of dispense, a failed reserve call and an
empty-slot selection all branch to the error state, and the clear key and
reset move the status backward to idle from any state. -/
theorem vending_status_not_linear (s : VendState) (ok : Bool) (slotCode : String) :
    (selectedProduct s = none → (dispense s ok).status = VendingStatus.error) ∧
    (∀ p, selectedProduct s = some p → s.balance < p.listing.price.getD 0 →
      (dispense s ok).status = VendingStatus.error) ∧
    (∀ p, selectedProduct s = some p → ¬ s.balance < p.listing.price.getD 0 →
      (dispense s false).status = VendingStatus.error) ∧
    (s.products.find? (fun p => p.slotCode == slotCode) = none →
      (selectSlot s slotCode).status = VendingStatus.error) ∧
    ((pressKey s ("C")).status = VendingStatus.idle) ∧
    ((resetMachine s).status = VendingStatus.idle) := by
  refine ⟨?_, ?_, ?_, ?_, ?_, ?_⟩
  · intro h
    simp [dispense, h]
  · intro p hp hlt
    simp [dispense, hp, hlt]
  · intro p hp hge
    simp [dispense, hp, hge]
  · intro h
    simp [selectSlot, h]
  · simp [pressKey]
  · simp [resetMachine]

/-- C5 amended-claim witness: concrete error branch and backward reset. -/
theorem vending_status_not_linear_witness :
    selectedProduct initialVendState = none ∧
    (dispense initialVendState true).status = VendingStatus.error ∧
    (pressKey vendPaying ("C")).status = VendingStatus.idle :=
  ⟨by decide,
    (vending_status_not_linear initialVendState true ("A1")).1 (by decide),
    (vending_status_not_linear vendPaying true ("A1")).2.2.2.2.1⟩

theorem find?_map_userId (l : List UserPoints) (f : UserPoints → UserPoints) (uid : Nat)
    (hf : ∀ x, (f x).userId = x.userId) :
    (l.map f).find? (fun up => up.userId == uid) =
      (l.find? (fun up => up.userId == uid)).map f := by
  induction l with
  | nil => rfl
  | cons a t ih =>
    simp only [List.map_cons]
    cases h : (a.userId == uid) with
    | true =>
      rw [List.find?_cons_of_pos _ (by simp [hf a, h]),
        List.find?_cons_of_pos _ (by simp [h])]
      rfl
    | false =>
      rw [List.find?_cons_of_neg _ (by simp [hf a, h]),
        List.find?_cons_of_neg _ (by simp [h]), ih]

theorem pointsOfList_map (l : List UserPoints) (f : UserPoints → UserPoints) (uid : Nat)
    (hf : ∀ x, (f x).userId = x.userId) (htp : ∀ x, (f x).totalPoints = x.totalPoints) :
    pointsOfList (l.map f) uid = pointsOfList l uid := by
  unfold pointsOfList
  rw [find?_map_userId l f uid hf]
  cases l.find? (fun up => up.userId == uid) with
  | none => rfl
  | some up => simp [htp up]

theorem streakOfList_map (l : List UserPoints) (f : UserPoints → UserPoints) (uid : Nat)
    (hf : ∀ x, (f x).userId = x.userId) (hcs : ∀ x, (f x).currentStreak = x.currentStreak) :
    streakOfList (l.map f) uid = streakOfList l uid := by
  unfold streakOfList
  rw [find?_map_userId l f uid hf]
  cases l.find? (fun up => up.userId == uid) with
  | none => rfl
  | some up => simp [hcs up]

theorem isSome_map_userId (l : List UserPoints) (f : UserPoints → UserPoints) (uid : Nat)
    (hf : ∀ x, (f x).userId = x.userId) :
    ((l.map f).find? (fun up => up.userId == uid)).isSome =
      (l.find? (fun up => up.userId == uid)).isSome := by
  rw [find?_map_userId l f uid hf]
  cases l.find? (fun up => up.userId == uid) <;> rfl

theorem pointsOfList_set (l : List UserPoints) (uid : Nat) (t : Int)
    (h : (l.find? (fun up => up.userId == uid)).isSome = true) :
    pointsOfList
      (l.map (fun up => if up.userId == uid then { up with totalPoints := t } else up))
      uid = t := by
  unfold pointsOfList
  rw [find?_map_userId l _ uid (fun x => by cases hx : x.userId == uid <;> simp [hx])]
  cases hfind : l.find? (fun up => up.userId == uid) with
  | none => rw [hfind] at h; simp at h
  | some up =>
    have hpred := List.find?_some hfind
    simp [beq_iff_eq.1 hpred]

theorem streakOfList_setStreak (l : List UserPoints) (uid : Nat) (v : Int)
    (h : (l.find? (fun up => up.userId == uid)).isSome = true) :
    streakOfList
      (l.map (fun up => if up.userId == uid then { up with currentStreak := v } else up))
      uid = v := by
  unfold streakOfList
  rw [find?_map_userId l _ uid (fun x => by cases hx : x.userId == uid <;> simp [hx])]
  cases hfind : l.find? (fun up => up.userId == uid) with
  | none => rw [hfind] at h; simp at h
  | some up =>
    have hpred := List.find?_some hfind
    simp [beq_iff_eq.1 hpred]

theorem pointsOfList_append_zero (l : List UserPoints) (r : UserPoints) (uid : Nat)
    (hr : r.totalPoints = 0) :
    pointsOfList (l ++ [r]) uid = pointsOfList l uid := by
  unfold pointsOfList
  rw [List.find?_append]
  cases h : l.find? (fun up => up.userId == uid) with
  | some up => rfl
  | none =>
    cases hr' : (r.userId == uid) with
    | true => simp [beq_iff_eq.1 hr', hr]
    | false => simp [hr']

theorem streakOfList_append_zero (l : List UserPoints) (r : UserPoints) (uid : Nat)
    (hr : r.currentStreak = 0) :
    streakOfList (l ++ [r]) uid = streakOfList l uid := by
  unfold streakOfList
  rw [List.find?_append]
  cases h : l.find? (fun up => up.userId == uid) with
  | some up => rfl
  | none =>
    cases hr' : (r.userId == uid) with
    | true => simp [beq_iff_eq.1 hr', hr]
    | false => simp [hr']

theorem isSome_append_right (l : List UserPoints) (r : UserPoints) (uid : Nat)
    (h : (l.find? (fun up => up.userId == uid)).isSome = true) :
    ((l ++ [r]).find? (fun up => up.userId == uid)).isSome = true := by
  rw [List.find?_append]
  cases hfind : l.find? (fun up => up.userId == uid) with
  | none => rw [hfind] at h; simp at h
  | some up => rfl

theorem streak_getD (l : List UserPoints) (uid : Nat) (d : UserPoints)
    (h : (l.find? (fun up => up.userId == uid)).isSome = true) :
    ((l.find? (fun up => up.userId == uid)).getD d).currentStreak = streakOfList l uid := by
  cases hfind : l.find? (fun up => up.userId == uid) with
  | none => rw [hfind] at h; simp at h
  | some u => simp [streakOfList, hfind]

theorem pointsOfList_setCo2 (db : Db) (u : Nat) (v : ℚ) (uid : Nat) :
    pointsOfList (setTotalCo2 db u v).userPoints uid = pointsOfList db.userPoints uid := by
  unfold setTotalCo2
  exact pointsOfList_map _ _ _ (fun x => by cases hx : x.userId == u <;> simp [hx])
    (fun x => by cases hx : x.userId == u <;> simp [hx])

theorem streakOfList_setCo2 (db : Db) (u : Nat) (v : ℚ) (uid : Nat) :
    streakOfList (setTotalCo2 db u v).userPoints uid = streakOfList db.userPoints uid := by
  unfold setTotalCo2
  exact streakOfList_map _ _ _ (fun x => by cases hx : x.userId == u <;> simp [hx])
    (fun x => by cases hx : x.userId == u <;> simp [hx])

theorem streakOfList_setTotalPoints (db : Db) (u : Nat) (t : Int) (uid : Nat) :
    streakOfList (setTotalPoints db u t).userPoints uid = streakOfList db.userPoints uid := by
  unfold setTotalPoints
  exact streakOfList_map _ _ _ (fun x => by cases hx : x.userId == u <;> simp [hx])
    (fun x => by cases hx : x.userId == u <;> simp [hx])

theorem pointsOfList_setCurrentStreak (db : Db) (u : Nat) (v : Int) (uid : Nat) :
    pointsOfList (setCurrentStreak db u v).userPoints uid = pointsOfList db.userPoints uid := by
  unfold setCurrentStreak
  exact pointsOfList_map _ _ _ (fun x => by cases hx : x.userId == u <;> simp [hx])
    (fun x => by cases hx : x.userId == u <;> simp [hx])

theorem isSome_setTotalPoints (db : Db) (u : Nat) (t : Int) (uid : Nat) :
    ((setTotalPoints db u t).userPoints.find? (fun up => up.userId == uid)).isSome =
      (db.userPoints.find? (fun up => up.userId == uid)).isSome := by
  unfold setTotalPoints
  exact isSome_map_userId _ _ _ (fun x => by cases hx : x.userId == u <;> simp [hx])

theorem isSome_setCo2 (db : Db) (u : Nat) (v : ℚ) (uid : Nat) :
    ((setTotalCo2 db u v).userPoints.find? (fun up => up.userId == uid)).isSome =
      (db.userPoints.find? (fun up => up.userId == uid)).isSome := by
  unfold setTotalCo2
  exact isSome_map_userId _ _ _ (fun x => by cases hx : x.userId == u <;> simp [hx])

theorem getOrCreate_fst_points (db : Db) (uid : Nat) :
    (getOrCreateUserPoints db uid).1.totalPoints = totalPointsOf db uid := by
  unfold getOrCreateUserPoints totalPointsOf pointsOfList
  cases h : db.userPoints.find? (fun up => up.userId == uid) <;> simp

theorem getOrCreate_fst_streak (db : Db) (uid : Nat) :
    (getOrCreateUserPoints db uid).1.currentStreak = currentStreakOf db uid := by
  unfold getOrCreateUserPoints currentStreakOf streakOfList
  cases h : db.userPoints.find? (fun up => up.userId == uid) <;> simp

theorem getOrCreate_tables (db : Db) (uid : Nat) :
    (getOrCreateUserPoints db uid).2.badges = db.badges ∧
    (getOrCreateUserPoints db uid).2.userBadges = db.userBadges ∧
    (getOrCreateUserPoints db uid).2.metrics = db.metrics := by
  unfold getOrCreateUserPoints
  cases h : db.userPoints.find? (fun up => up.userId == uid) <;> simp

theorem getOrCreate_points (db : Db) (uid uid' : Nat) :
    pointsOfList (getOrCreateUserPoints db uid).2.userPoints uid' =
      pointsOfList db.userPoints uid' := by
  unfold getOrCreateUserPoints
  cases h : db.userPoints.find? (fun up => up.userId == uid) with
  | some p => rfl
  | none => exact pointsOfList_append_zero _ _ _ rfl

theorem getOrCreate_streak (db : Db) (uid uid' : Nat) :
    streakOfList (getOrCreateUserPoints db uid).2.userPoints uid' =
      streakOfList db.userPoints uid' := by
  unfold getOrCreateUserPoints
  cases h : db.userPoints.find? (fun up => up.userId == uid) with
  | some p => rfl
  | none => exact streakOfList_append_zero _ _ _ rfl

theorem getOrCreate_isSome (db : Db) (uid : Nat) :
    ((getOrCreateUserPoints db uid).2.userPoints.find?
      (fun up => up.userId == uid)).isSome = true := by
  unfold getOrCreateUserPoints
  cases h : db.userPoints.find? (fun up => up.userId == uid) with
  | some p => simp [h]
  | none => simp [List.find?_append, h]

theorem getOrCreate_isSome_mono (db : Db) (uid uid' : Nat)
    (h : (db.userPoints.find? (fun up => up.userId == uid')).isSome = true) :
    ((getOrCreateUserPoints db uid).2.userPoints.find?
      (fun up => up.userId == uid')).isSome = true := by
  unfold getOrCreateUserPoints
  cases hf : db.userPoints.find? (fun up => up.userId == uid) with
  | some p => exact h
  | none => exact isSome_append_right _ _ _ h

theorem awardCo2_points (db : Db) (uid : Nat) (up : UserPoints) (a : PAction)
    (ld : Option ListingData) (uid' : Nat) :
    pointsOfList (awardCo2 db uid up a ld).2.userPoints uid' =
      pointsOfList db.userPoints uid' := by
  unfold awardCo2
  cases a <;> cases ld <;> try rfl
  case sold.some l =>
    dsimp only
    cases hco : l.co2Saved with
    | none => rfl
    | some c =>
      cases hc : (c == 0) with
      | true => simp [hc]
      | false =>
        cases hb : l.buyerId with
        | none => simp [hc, hb, pointsOfList_setCo2]
        | some buyer => simp [hc, hb, pointsOfList_setCo2, getOrCreate_points]

theorem awardCo2_streak (db : Db) (uid : Nat) (up : UserPoints) (a : PAction)
    (ld : Option ListingData) (uid' : Nat) :
    streakOfList (awardCo2 db uid up a ld).2.userPoints uid' =
      streakOfList db.userPoints uid' := by
  unfold awardCo2
  cases a <;> cases ld <;> try rfl
  case sold.some l =>
    dsimp only
    cases hco : l.co2Saved with
    | none => rfl
    | some c =>
      cases hc : (c == 0) with
      | true => simp [hc]
      | false =>
        cases hb : l.buyerId with
        | none => simp [hc, hb, streakOfList_setCo2]
        | some buyer => simp [hc, hb, streakOfList_setCo2, getOrCreate_streak]

theorem awardCo2_metrics (db : Db) (uid : Nat) (up : UserPoints) (a : PAction)
    (ld : Option ListingData) :
    (awardCo2 db uid up a ld).2.metrics = db.metrics := by
  unfold awardCo2
  cases a <;> cases ld <;> try rfl
  case sold.some l =>
    dsimp only
    cases hco : l.co2Saved with
    | none => rfl
    | some c =>
      cases hc : (c == 0) with
      | true => simp [hc]
      | false =>
        cases hb : l.buyerId with
        | none => simp [hc, hb, setTotalCo2]
        | some buyer =>
          simp [hc, hb, setTotalCo2]
          rw [(getOrCreate_tables _ _).2.2]

theorem awardCo2_isSome (db : Db) (uid : Nat) (up : UserPoints) (a : PAction)
    (ld : Option ListingData) (uid' : Nat)
    (h : (db.userPoints.find? (fun x => x.userId == uid')).isSome = true) :
    (((awardCo2 db uid up a ld).2.userPoints.find?
      (fun x => x.userId == uid')).isSome = true) := by
  unfold awardCo2
  cases a <;> cases ld <;> try exact h
  case sold.some l =>
    dsimp only
    cases hco : l.co2Saved with
    | none => exact h
    | some c =>
      cases hc : (c == 0) with
      | true => simpa [hc] using h
      | false =>
        cases hb : l.buyerId with
        | none =>
          simp only [hc, hb, Bool.false_eq_true, if_false, isSome_setCo2]
          exact h
        | some buyer =>
          simp only [hc, hb, Bool.false_eq_true, if_false, isSome_setCo2]
          exact getOrCreate_isSome_mono _ _ _ (by rw [isSome_setCo2]; exact h)

theorem awardPoints_newTotal (db : Db) (uid : Nat) (a : PAction) (pid : Option Nat)
    (q : Option ℚ) (ld : Option ListingData) (today : Nat) :
    (awardPoints db uid a pid q ld today).1.newTotal =
      max 0 (totalPointsOf db uid + POINT_VALUES a) := by
  simp only [awardPoints]
  rw [getOrCreate_fst_points]

theorem awardPoints_metrics (db : Db) (uid : Nat) (a : PAction) (pid : Option Nat)
    (q : Option ℚ) (ld : Option ListingData) (today : Nat) :
    (awardPoints db uid a pid q ld today).2.metrics =
      db.metrics ++ [⟨pid, uid, today, q.getD 1, actionType a⟩] := by
  simp only [awardPoints]
  rw [awardCo2_metrics]
  simp only [setTotalPoints]
  rw [(getOrCreate_tables db uid).2.2]

theorem awardPoints_points (db : Db) (uid : Nat) (a : PAction) (pid : Option Nat)
    (q : Option ℚ) (ld : Option ListingData) (today : Nat) :
    totalPointsOf (awardPoints db uid a pid q ld today).2 uid =
      max 0 (totalPointsOf db uid + POINT_VALUES a) := by
  simp only [awardPoints, totalPointsOf]
  rw [awardCo2_points]
  have hSome := getOrCreate_isSome db uid
  simp only [setTotalPoints]
  rw [pointsOfList_set _ _ _ hSome, getOrCreate_fst_points]
  rfl

theorem awardPoints_streakEq (db : Db) (uid : Nat) (a : PAction) (pid : Option Nat)
    (q : Option ℚ) (ld : Option ListingData) (today : Nat) :
    currentStreakOf (awardPoints db uid a pid q ld today).2 uid =
      currentStreakOf db uid := by
  simp only [awardPoints, currentStreakOf]
  rw [awardCo2_streak]
  simp only [setTotalPoints]
  rw [streakOfList_map _ _ _ (fun x => by cases hx : x.userId == uid <;> simp [hx])
    (fun x => by cases hx : x.userId == uid <;> simp [hx])]
  rw [getOrCreate_streak]

theorem awardPoints_isSome (db : Db) (uid : Nat) (a : PAction) (pid : Option Nat)
    (q : Option ℚ) (ld : Option ListingData) (today : Nat) :
    (((awardPoints db uid a pid q ld today).2.userPoints.find?
      (fun x => x.userId == uid)).isSome = true) := by
  simp only [awardPoints]
  apply awardCo2_isSome
  rw [isSome_setTotalPoints]
  exact getOrCreate_isSome db uid

/-- C2 counterexample: at zero points a wasted action does not change the
total by the fixed -3 amount — the new total is clamped to 0. -/
theorem awardPoints_wasted_clamp_cex :
    (awardPoints dbZero 1 PAction.wasted none none none 0).1.newTotal = 0 ∧
    totalPointsOf dbZero 1 + POINT_VALUES PAction.wasted ≠
      (awardPoints dbZero 1 PAction.wasted none none none 0).1.newTotal := by
  exact ⟨by decide, by decide⟩

/-- C2 (amended): every awardPoints call uses the fixed per-action amounts
(+5 consumed, +10 shared, +8 sold, -3 wasted), sets the user's total to
max(0, oldTotal + amount), records exactly one sustainability-metric row for
the event, and returns the action, the amount and the new total. -/
theorem awardPoints_spec (db : Db) (uid : Nat) (a : PAction) (pid : Option Nat)
    (q : Option ℚ) (ld : Option ListingData) (today : Nat) :
    (awardPoints db uid a pid q ld today).1.action = a ∧
    (awardPoints db uid a pid q ld today).1.amount = POINT_VALUES a ∧
    POINT_VALUES PAction.consumed = 5 ∧ POINT_VALUES PAction.shared = 10 ∧
    POINT_VALUES PAction.sold = 8 ∧ POINT_VALUES PAction.wasted = -3 ∧
    (awardPoints db uid a pid q ld today).1.newTotal =
      max 0 (totalPointsOf db uid + POINT_VALUES a) ∧
    totalPointsOf (awardPoints db uid a pid q ld today).2 uid =
      (awardPoints db uid a pid q ld today).1.newTotal ∧
    (awardPoints db uid a pid q ld today).2.metrics =
      db.metrics ++ [⟨pid, uid, today, q.getD 1, actionType a⟩] := by
  refine ⟨rfl, rfl, rfl, rfl, rfl, rfl, ?_, ?_, ?_⟩
  · exact awardPoints_newTotal db uid a pid q ld today
  · rw [awardPoints_points, awardPoints_newTotal]
  · exact awardPoints_metrics db uid a pid q ld today

/-- C6: recording a consumption event awards the consumed points and updates
the streak stored in user_points; activity on the previous day increments
currentStreak by one. -/
theorem recordConsumption_spec (db : Db) (uid : Nat) (pid : Option Nat)
    (q : Option ℚ) (today : Nat)
    (h : hasActivityOn db uid (today - 1) = true) :
    currentStreakOf (recordConsumption db uid pid q today).2 uid =
      currentStreakOf db uid + 1 ∧
    totalPointsOf (recordConsumption db uid pid q today).2 uid =
      max 0 (totalPointsOf db uid + POINT_VALUES PAction.consumed) := by
  constructor
  · simp only [recordConsumption, currentStreakOf, setCurrentStreak]
    rw [streakOfList_setStreak _ _ _
      (awardPoints_isSome db uid PAction.consumed pid q none today), h]
    simp only [if_true]
    have h2 : (((awardPoints db uid PAction.consumed pid q none today).2.userPoints.find?
        (fun p => p.userId == uid)).getD ⟨uid, 0, 0, 0⟩).currentStreak =
        streakOfList (awardPoints db uid PAction.consumed pid q none today).2.userPoints uid :=
      streak_getD _ _ _ (awardPoints_isSome db uid PAction.consumed pid q none today)
    rw [h2]
    have h3 : streakOfList (awardPoints db uid PAction.consumed pid q none today).2.userPoints
        uid = currentStreakOf db uid :=
      awardPoints_streakEq db uid PAction.consumed pid q none today
    rw [h3]
    rfl
  · simp only [recordConsumption, totalPointsOf, setCurrentStreak]
    rw [pointsOfList_map _ _ _ (fun x => by cases hx : x.userId == uid <;> simp [hx])
      (fun x => by cases hx : x.userId == uid <;> simp [hx])]
    exact awardPoints_points db uid PAction.consumed pid q none today

/-- C6 witness: user 1 was active on day 4; recording a consumption on day 5
bumps the streak from 3 to 4 and adds the consumed points. -/
theorem recordConsumption_witness :
    hasActivityOn dbStreak 1 4 = true ∧
    currentStreakOf (recordConsumption dbStreak 1 none none 5).2 1 =
      currentStreakOf dbStreak 1 + 1 ∧
    totalPointsOf (recordConsumption dbStreak 1 none none 5).2 1 =
      max 0 (totalPointsOf dbStreak 1 + POINT_VALUES PAction.consumed) :=
  ⟨by decide, (recordConsumption_spec dbStreak 1 none none 5 (by decide)).1,
    (recordConsumption_spec dbStreak 1 none none 5 (by decide)).2⟩

theorem pointsOfList_set_nonneg (l : List UserPoints) (u : Nat) (t : Int) (uid : Nat)
    (ht : 0 ≤ t) (h : 0 ≤ pointsOfList l uid) :
    0 ≤ pointsOfList
      (l.map (fun up => if up.userId == u then { up with totalPoints := t } else up))
      uid := by
  unfold pointsOfList at h ⊢
  rw [find?_map_userId _ _ _ (fun x => by cases hx : x.userId == u <;> simp [hx])]
  cases hfind : l.find? (fun up => up.userId == uid) with
  | none => simp
  | some up =>
    rw [hfind] at h
    cases hx : (up.userId == u) with
    | true => simpa [beq_iff_eq.1 hx] using ht
    | false => simpa [ne_of_beq_false hx] using h

theorem awardPoints_nonneg (db : Db) (u : Nat) (a : PAction) (pid : Option Nat)
    (q : Option ℚ) (ld : Option ListingData) (today : Nat) (uid : Nat)
    (h : 0 ≤ totalPointsOf db uid) :
    0 ≤ totalPointsOf (awardPoints db u a pid q ld today).2 uid := by
  simp only [awardPoints, totalPointsOf] at h ⊢
  rw [awardCo2_points]
  simp only [setTotalPoints]
  apply pointsOfList_set_nonneg
  · exact le_max_left 0 _
  · rw [getOrCreate_points]
    exact h

/-- C8: totalPoints never becomes negative: awardPoints computes the new
total as max(0, oldTotal + amount), so every sequence of point-awarding
calls keeps a non-negative total non-negative. -/
theorem totalPoints_nonneg_invariant (evs : List AwardEvent) (db : Db) (uid : Nat)
    (h : 0 ≤ totalPointsOf db uid) :
    0 ≤ totalPointsOf (applyEvents evs db) uid := by
  induction evs generalizing db with
  | nil => exact h
  | cons e rest ih =>
    exact ih _ (awardPoints_nonneg db e.uid e.action e.productId e.quantity
      e.listingData e.today uid h)

/-- C8 witness: a wasted deduction from zero points stays at a non-negative
total. -/
theorem totalPoints_nonneg_witness :
    (0 : Int) ≤ totalPointsOf dbZero 1 ∧
    0 ≤ totalPointsOf (applyEvents [⟨1, PAction.wasted, none, none, none, 0⟩] dbZero) 1 :=
  ⟨by decide,
    totalPoints_nonneg_invariant [⟨1, PAction.wasted, none, none, none, 0⟩] dbZero 1
      (by decide)⟩

theorem applyAward_badges (db : Db) (uid : Nat) (b : BadgeRow) :
    (applyAward db uid b).badges = db.badges := by
  unfold applyAward
  split
  · dsimp only
    split <;> rfl
  · rfl

theorem applyAward_metrics (db : Db) (uid : Nat) (b : BadgeRow) :
    (applyAward db uid b).metrics = db.metrics := by
  unfold applyAward
  split
  · dsimp only
    split <;> rfl
  · rfl

theorem applyAward_userBadges (db : Db) (uid : Nat) (b : BadgeRow) :
    (applyAward db uid b).userBadges = db.userBadges ++ [⟨uid, b.id⟩] := by
  unfold applyAward
  split
  · dsimp only
    split <;> rfl
  · rfl

theorem applyAward_isSome (db : Db) (uid uid' : Nat) (b : BadgeRow)
    (h : (db.userPoints.find? (fun up => up.userId == uid')).isSome = true) :
    (((applyAward db uid b).userPoints.find? (fun up => up.userId == uid')).isSome
      = true) := by
  unfold applyAward
  split
  · dsimp only
    split
    · rw [isSome_setTotalPoints]
      exact h
    · exact h
  · exact h

theorem applyAward_points (db : Db) (uid : Nat) (b : BadgeRow)
    (h : (db.userPoints.find? (fun up => up.userId == uid)).isSome = true) :
    totalPointsOf (applyAward db uid b) uid =
      totalPointsOf db uid + (if 0 < b.pointsAwarded then b.pointsAwarded else 0) := by
  unfold applyAward
  by_cases hpa : 0 < b.pointsAwarded
  · simp only [if_pos hpa]
    cases hf : db.userPoints.find? (fun up => up.userId == uid) with
    | none =>
      exfalso
      rw [hf] at h
      simp at h
    | some up =>
      simp only [totalPointsOf, setTotalPoints]
      rw [pointsOfList_set _ _ _ (by rw [show ({ db with
        userBadges := db.userBadges ++ [⟨uid, b.id⟩] } : Db).userPoints.find?
          (fun up => up.userId == uid) = some up from hf]; rfl)]
      simp [pointsOfList, hf]
  · simp only [if_neg hpa]
    simp [totalPointsOf, pointsOfList]

theorem userHasBadge_mem {db : Db} {uid bid : Nat}
    (h : userHasBadge db uid bid = true) : (⟨uid, bid⟩ : UserBadge) ∈ db.userBadges := by
  unfold userHasBadge at h
  obtain ⟨ub, hmem, hpred⟩ := List.any_eq_true.1 h
  rw [Bool.and_eq_true] at hpred
  obtain ⟨h1, h2⟩ := hpred
  have e1 := beq_iff_eq.1 h1
  have e2 := beq_iff_eq.1 h2
  cases ub
  simp only at e1 e2
  subst e1
  subst e2
  exact hmem

theorem userHasBadge_of_mem {db : Db} {uid bid : Nat}
    (h : (⟨uid, bid⟩ : UserBadge) ∈ db.userBadges) : userHasBadge db uid bid = true := by
  unfold userHasBadge
  rw [List.any_eq_true]
  exact ⟨⟨uid, bid⟩, h, by simp⟩

theorem earned_contains_eq (db : Db) (uid bid : Nat) :
    (earnedList db uid).contains bid = userHasBadge db uid bid := by
  cases h2 : userHasBadge db uid bid with
  | true =>
    have hmem := userHasBadge_mem h2
    have hm : bid ∈ earnedList db uid :=
      List.mem_map.2 ⟨⟨uid, bid⟩, List.mem_filter.2 ⟨hmem, by simp⟩, rfl⟩
    simpa using hm
  | false =>
    cases h1 : (earnedList db uid).contains bid with
    | false => rfl
    | true =>
      exfalso
      have hm : bid ∈ earnedList db uid := by simpa using h1
      obtain ⟨ub, hf, hbid⟩ := List.mem_map.1 hm
      obtain ⟨hmemb, hpuid⟩ := List.mem_filter.1 hf
      have hh : userHasBadge db uid bid = true := by
        unfold userHasBadge
        rw [List.any_eq_true]
        exact ⟨ub, hmemb, by
          rw [Bool.and_eq_true]
          exact ⟨hpuid, beq_iff_eq.2 hbid⟩⟩
      rw [h2] at hh
      cases hh

theorem userHasBadge_applyAward_ne (db : Db) (u uid bid : Nat) (b : BadgeRow)
    (hne : bid ≠ b.id) :
    userHasBadge (applyAward db u b) uid bid = userHasBadge db uid bid := by
  unfold userHasBadge
  rw [applyAward_userBadges, List.any_append]
  have : ([(⟨u, b.id⟩ : UserBadge)].any fun ub => ub.userId == uid && ub.badgeId == bid)
      = false := by
    simp [hne, Ne.symm hne]
  rw [this, Bool.or_false]

theorem evalCond_metrics_congr (db db' : Db) (uid : Nat) (c : Cond)
    (h : db'.metrics = db.metrics) :
    evalCond c (getUserBadgeMetrics db' uid) = evalCond c (getUserBadgeMetrics db uid) := by
  cases c <;> simp [evalCond, getUserBadgeMetrics, h]

theorem awardLoop_skip_all (uid : Nat) (metrics : BadgeMetrics) (badges : List BadgeRow)
    (earned : List Nat) :
    ∀ (defs : List BadgeDef) (db : Db) (k : Nat) (inj : Nat → Option DbError),
    (∀ d, d ∈ defs → ∀ b, badges.find? (fun x => x.code == d.code) = some b →
      earned.contains b.id = true ∨ evalCond d.cond metrics = false) →
    awardLoop uid metrics badges earned defs db k inj = .ok ([], db) := by
  intro defs
  induction defs with
  | nil => intro db k inj _; rfl
  | cons d rest ih =>
    intro db k inj hd
    cases hfind : badges.find? (fun x => x.code == d.code) with
    | none =>
      simp only [awardLoop, hfind]
      exact ih db k inj (fun d' hd' => hd d' (List.mem_cons_of_mem _ hd'))
    | some b =>
      rcases hd d (List.mem_cons_self _ _) b hfind with hearn | hcond
      · simp only [awardLoop, hfind, hearn, if_true]
        exact ih db k inj (fun d' hd' => hd d' (List.mem_cons_of_mem _ hd'))
      · cases hearn : earned.contains b.id with
        | true =>
          simp only [awardLoop, hfind, hearn, if_true]
          exact ih db k inj (fun d' hd' => hd d' (List.mem_cons_of_mem _ hd'))
        | false =>
          simp only [awardLoop, hfind, hearn, hcond, Bool.false_eq_true, if_false,
            Bool.not_false, if_true]
          exact ih db k inj (fun d' hd' => hd d' (List.mem_cons_of_mem _ hd'))

theorem awardLoop_none_total (uid : Nat) (metrics : BadgeMetrics) (badges : List BadgeRow)
    (earned : List Nat) :
    ∀ (defs : List BadgeDef) (db : Db) (k : Nat),
    ∃ res dbF,
      awardLoop uid metrics badges earned defs db k (fun _ => none) = .ok (res, dbF) ∧
      dbF.badges = db.badges ∧
      dbF.metrics = db.metrics ∧
      (∀ ub, ub ∈ db.userBadges → ub ∈ dbF.userBadges) ∧
      (∀ d, d ∈ defs → ∀ b, badges.find? (fun x => x.code == d.code) = some b →
        earned.contains b.id = false → evalCond d.cond metrics = true →
        (⟨uid, b.id⟩ : UserBadge) ∈ dbF.userBadges) := by
  intro defs
  induction defs with
  | nil =>
    intro db k
    exact ⟨[], db, rfl, rfl, rfl, fun _ h => h, by intro d hd; cases hd⟩
  | cons d rest ih =>
    intro db k
    cases hfind : badges.find? (fun x => x.code == d.code) with
    | none =>
      obtain ⟨res, dbF, heq, hb, hm, hsub, hmem⟩ := ih db k
      refine ⟨res, dbF, ?_, hb, hm, hsub, ?_⟩
      · simp only [awardLoop, hfind]
        exact heq
      · intro d' hd' b hfb hearn hcond
        rcases List.mem_cons.1 hd' with rfl | hd''
        · rw [hfind] at hfb
          cases hfb
        · exact hmem d' hd'' b hfb hearn hcond
    | some b =>
      cases hearn : earned.contains b.id with
      | true =>
        obtain ⟨res, dbF, heq, hb, hm, hsub, hmem⟩ := ih db k
        refine ⟨res, dbF, ?_, hb, hm, hsub, ?_⟩
        · simp only [awardLoop, hfind, hearn, if_true]
          exact heq
        · intro d' hd' b' hfb hearn' hcond'
          rcases List.mem_cons.1 hd' with rfl | hd''
          · rw [hfind] at hfb
            injection hfb with hbb
            subst hbb
            rw [hearn] at hearn'
            cases hearn'
          · exact hmem d' hd'' b' hfb hearn' hcond'
      | false =>
        cases hcond : evalCond d.cond metrics with
        | false =>
          obtain ⟨res, dbF, heq, hb, hm, hsub, hmem⟩ := ih db k
          refine ⟨res, dbF, ?_, hb, hm, hsub, ?_⟩
          · simp only [awardLoop, hfind, hearn, hcond, Bool.false_eq_true, if_false,
              Bool.not_false, if_true]
            exact heq
          · intro d' hd' b' hfb hearn' hcond'
            rcases List.mem_cons.1 hd' with rfl | hd''
            · rw [hfind] at hfb
              injection hfb with hbb
              subst hbb
              rw [hcond] at hcond'
              cases hcond'
            · exact hmem d' hd'' b' hfb hearn' hcond'
        | true =>
          cases hhas : userHasBadge db uid b.id with
          | true =>
            obtain ⟨res, dbF, heq, hb, hm, hsub, hmem⟩ := ih db (k + 1)
            refine ⟨res, dbF, ?_, hb, hm, hsub, ?_⟩
            · simp only [awardLoop, hfind, hearn, hcond, Bool.false_eq_true, if_false,
                Bool.not_true, if_true, hhas]
              exact heq
            · intro d' hd' b' hfb hearn' hcond'
              rcases List.mem_cons.1 hd' with rfl | hd''
              · rw [hfind] at hfb
                injection hfb with hbb
                subst hbb
                exact hsub _ (userHasBadge_mem hhas)
              · exact hmem d' hd'' b' hfb hearn' hcond'
          | false =>
            obtain ⟨res, dbF, heq, hb, hm, hsub, hmem⟩ := ih (applyAward db uid b) (k + 1)
            refine ⟨⟨d.code, d.name, b.pointsAwarded⟩ :: res, dbF, ?_, ?_, ?_, ?_, ?_⟩
            · simp only [awardLoop, hfind, hearn, hcond, Bool.false_eq_true, if_false,
                Bool.not_true, hhas, heq]
            · rw [hb, applyAward_badges]
            · rw [hm, applyAward_metrics]
            · intro ub hub
              refine hsub ub ?_
              rw [applyAward_userBadges]
              exact List.mem_append_left _ hub
            · intro d' hd' b' hfb hearn' hcond'
              rcases List.mem_cons.1 hd' with rfl | hd''
              · rw [hfind] at hfb
                injection hfb with hbb
                subst hbb
                refine hsub _ ?_
                rw [applyAward_userBadges]
                exact List.mem_append_right _ (by simp)
              · exact hmem d' hd'' b' hfb hearn' hcond'

theorem awardLoop_inj_agree (uid : Nat) (metrics : BadgeMetrics) (badges : List BadgeRow)
    (earned : List Nat) :
    ∀ (defs : List BadgeDef) (db : Db) (k k' : Nat) (inj inj' : Nat → Option DbError),
    (∀ j, k ≤ j → inj j = none) → (∀ j, k' ≤ j → inj' j = none) →
    awardLoop uid metrics badges earned defs db k inj =
      awardLoop uid metrics badges earned defs db k' inj' := by
  intro defs
  induction defs with
  | nil => intro db k k' inj inj' _ _; rfl
  | cons d rest ih =>
    intro db k k' inj inj' h h'
    cases hfind : badges.find? (fun x => x.code == d.code) with
    | none =>
      simp only [awardLoop, hfind]
      exact ih db k k' inj inj' h h'
    | some b =>
      cases hearn : earned.contains b.id with
      | true =>
        simp only [awardLoop, hfind, hearn, if_true]
        exact ih db k k' inj inj' h h'
      | false =>
        cases hcond : evalCond d.cond metrics with
        | false =>
          simp only [awardLoop, hfind, hearn, hcond, Bool.false_eq_true, if_false,
            Bool.not_false, if_true]
          exact ih db k k' inj inj' h h'
        | true =>
          have hik : inj k = none := h k (Nat.le_refl k)
          have hik' : inj' k' = none := h' k' (Nat.le_refl k')
          simp only [awardLoop, hfind, hearn, hcond, Bool.false_eq_true, if_false,
            Bool.not_true, hik, hik']
          have hnext : ∀ j, k + 1 ≤ j → inj j = none :=
            fun j hj => h j (Nat.le_of_succ_le hj)
          have hnext' : ∀ j, k' + 1 ≤ j → inj' j = none :=
            fun j hj => h' j (Nat.le_of_succ_le hj)
          cases hhas : userHasBadge db uid b.id with
          | true =>
            simp only [if_true]
            exact ih db (k + 1) (k' + 1) inj inj' hnext hnext'
          | false =>
            simp only [Bool.false_eq_true, if_false]
            rw [ih (applyAward db uid b) (k + 1) (k' + 1) inj inj' hnext hnext']

/-- C7: when an insert attempt for a reached badge throws, a UNIQUE-constraint
error makes the loop skip that badge and continue with the remaining
definitions exactly as an undisturbed run would, while any other database
error propagates to the caller unchanged. -/
theorem badge_insert_error_handling (uid : Nat) (metrics : BadgeMetrics)
    (badges : List BadgeRow) (earned : List Nat) (d : BadgeDef) (defs : List BadgeDef)
    (db : Db) (msg : String) (b : BadgeRow)
    (hfind : badges.find? (fun x => x.code == d.code) = some b)
    (hearn : earned.contains b.id = false)
    (hcond : evalCond d.cond metrics = true) :
    awardLoop uid metrics badges earned (d :: defs) db 0 (injOnce .uniqueViolation) =
      awardLoop uid metrics badges earned defs db 0 (fun _ => none) ∧
    awardLoop uid metrics badges earned (d :: defs) db 0 (injOnce (.other msg)) =
      .error (.other msg) := by
  constructor
  · simp only [awardLoop, hfind, hearn, hcond, Bool.false_eq_true, if_false,
      Bool.not_true, injOnce, isUniqueErr, if_true]
    exact awardLoop_inj_agree uid metrics badges earned defs db 1 0
      (injOnce .uniqueViolation) (fun _ => none)
      (fun j hj => by simp [injOnce]; omega) (fun _ _ => rfl)
  · have hne : b.id ∉ earned := by simpa using hearn
    simp [awardLoop, hfind, hne, hcond, injOnce, isUniqueErr]

/-- C7 witness: the loop on a one-definition list whose insert is reached:
an injected unique violation is skipped (equal to the run on the empty
tail), and an injected other error propagates. -/
theorem badge_insert_error_handling_witness :
    awardLoop 1 metricsZero [sampleBadgeRow] [] [sampleDef] dbEmpty 0
        (injOnce .uniqueViolation) =
      awardLoop 1 metricsZero [sampleBadgeRow] [] [] dbEmpty 0 (fun _ => none) ∧
    awardLoop 1 metricsZero [sampleBadgeRow] [] [sampleDef] dbEmpty 0
        (injOnce (.other ("boom"))) =
      .error (.other ("boom")) :=
  badge_insert_error_handling 1 metricsZero [sampleBadgeRow] [] sampleDef [] dbEmpty
    "boom" sampleBadgeRow (by decide) (by decide) (by decide)

/-- C9: checkAndAwardBadges is idempotent — a second run with no intervening
change returns no newly awarded badges and leaves the database exactly as
the first run left it. -/
theorem checkAndAwardBadges_idem (db : Db) (uid : Nat) :
    checkAndAwardBadges (checkAndAwardBadges db uid).2 uid =
      ([], (checkAndAwardBadges db uid).2) := by
  obtain ⟨res, db1, heq, hbadges, hmetrics, hsub, hmem⟩ :=
    awardLoop_none_total uid (getUserBadgeMetrics db uid) db.badges (earnedList db uid)
      BADGE_DEFINITIONS db 0
  have hck : checkAndAwardBadges db uid = (res, db1) := by
    unfold checkAndAwardBadges checkAndAwardBadgesWith
    rw [heq]
  rw [hck]
  unfold checkAndAwardBadges checkAndAwardBadgesWith
  rw [awardLoop_skip_all uid (getUserBadgeMetrics db1 uid) db1.badges (earnedList db1 uid)
    BADGE_DEFINITIONS db1 0 (fun _ => none) ?_]
  intro d hd b hfb
  rw [hbadges] at hfb
  cases hearn1 : (earnedList db uid).contains b.id with
  | true =>
    left
    rw [earned_contains_eq]
    refine userHasBadge_of_mem (hsub _ (userHasBadge_mem ?_))
    rw [← earned_contains_eq]
    exact hearn1
  | false =>
    cases hcond1 : evalCond d.cond (getUserBadgeMetrics db uid) with
    | true =>
      left
      rw [earned_contains_eq]
      exact userHasBadge_of_mem (hmem d hd b hfb hearn1 hcond1)
    | false =>
      right
      rw [evalCond_metrics_congr db db1 uid d.cond hmetrics]
      exact hcond1

theorem awardLoop_none_award (uid : Nat) (metrics : BadgeMetrics) (badges : List BadgeRow) :
    ∀ (defs : List BadgeDef) (earned : List Nat) (db : Db) (k : Nat),
    (badges.map (fun b => b.id)).Nodup →
    (defs.map (fun d => d.code)).Nodup →
    (∀ d, d ∈ defs → ∀ b, badges.find? (fun x => x.code == d.code) = some b →
      userHasBadge db uid b.id = earned.contains b.id) →
    ((db.userPoints.find? (fun up => up.userId == uid)).isSome = true) →
    ∃ res dbF,
      awardLoop uid metrics badges earned defs db k (fun _ => none) = .ok (res, dbF) ∧
      res.map (fun aw => aw.code) =
        (defs.filter (defAwardablePure badges earned metrics)).map (fun d => d.code) ∧
      totalPointsOf dbF uid = totalPointsOf db uid + sumPosPoints res := by
  intro defs
  induction defs with
  | nil =>
    intro earned db k _ _ _ _
    exact ⟨[], db, rfl, rfl, by simp [sumPosPoints]⟩
  | cons d rest ih =>
    intro earned db k hIds hCodes hSync hUp
    have hCodes' : (rest.map (fun d => d.code)).Nodup := List.Nodup.of_cons hCodes
    have hdnotin : d.code ∉ rest.map (fun d => d.code) := (List.nodup_cons.1 hCodes).1
    cases hfind : badges.find? (fun x => x.code == d.code) with
    | none =>
      obtain ⟨res, dbF, heq, hcodes, hpts⟩ := ih earned db k hIds hCodes'
        (fun d' hd' => hSync d' (List.mem_cons_of_mem _ hd')) hUp
      refine ⟨res, dbF, ?_, ?_, hpts⟩
      · simp only [awardLoop, hfind]
        exact heq
      · have hskip : defAwardablePure badges earned metrics d = false := by
          simp [defAwardablePure, hfind]
        rw [hcodes, List.filter_cons, hskip]
        simp
    | some b =>
      have hsync_d := hSync d (List.mem_cons_self _ _) b hfind
      cases hearn : earned.contains b.id with
      | true =>
        obtain ⟨res, dbF, heq, hcodes, hpts⟩ := ih earned db k hIds hCodes'
          (fun d' hd' => hSync d' (List.mem_cons_of_mem _ hd')) hUp
        refine ⟨res, dbF, ?_, ?_, hpts⟩
        · simp only [awardLoop, hfind, hearn, if_true]
          exact heq
        · have hin : b.id ∈ earned := by simpa using hearn
          have hskip : defAwardablePure badges earned metrics d = false := by
            simp [defAwardablePure, hfind, hin]
          rw [hcodes, List.filter_cons, hskip]
          simp
      | false =>
        cases hcond : evalCond d.cond metrics with
        | false =>
          obtain ⟨res, dbF, heq, hcodes, hpts⟩ := ih earned db k hIds hCodes'
            (fun d' hd' => hSync d' (List.mem_cons_of_mem _ hd')) hUp
          refine ⟨res, dbF, ?_, ?_, hpts⟩
          · simp only [awardLoop, hfind, hearn, hcond, Bool.false_eq_true, if_false,
              Bool.not_false, if_true]
            exact heq
          · have hskip : defAwardablePure badges earned metrics d = false := by
              simp [defAwardablePure, hfind, hcond]
            rw [hcodes, List.filter_cons, hskip]
            simp
        | true =>
          have hhas : userHasBadge db uid b.id = false := by
            rw [hsync_d, hearn]
          have hSync' : ∀ d', d' ∈ rest → ∀ b',
              badges.find? (fun x => x.code == d'.code) = some b' →
              userHasBadge (applyAward db uid b) uid b'.id = earned.contains b'.id := by
            intro d' hd' b' hfb'
            have hcodene : d'.code ≠ d.code := by
              intro hcc
              exact hdnotin (hcc ▸ List.mem_map_of_mem _ hd')
            have hpred1 := List.find?_some hfind
            have hpred2 := List.find?_some hfb'
            have hbcode : b.code = d.code := beq_iff_eq.1 hpred1
            have hbcode' : b'.code = d'.code := beq_iff_eq.1 hpred2
            have hbne : b' ≠ b := by
              intro hbb
              exact hcodene (by rw [← hbcode', hbb, hbcode])
            have hidne : b'.id ≠ b.id := by
              intro hid
              exact hbne (List.inj_on_of_nodup_map hIds
                (List.mem_of_find?_eq_some hfb') (List.mem_of_find?_eq_some hfind) hid)
            rw [userHasBadge_applyAward_ne db uid uid b'.id b hidne]
            exact hSync d' (List.mem_cons_of_mem _ hd') b' hfb'
          have hUp' := applyAward_isSome db uid uid b hUp
          obtain ⟨res, dbF, heq, hcodes, hpts⟩ := ih earned (applyAward db uid b) (k + 1)
            hIds hCodes' hSync' hUp'
          refine ⟨⟨d.code, d.name, b.pointsAwarded⟩ :: res, dbF, ?_, ?_, ?_⟩
          · simp only [awardLoop, hfind, hearn, hcond, Bool.false_eq_true, if_false,
              Bool.not_true, hhas, heq]
          · have hnin : b.id ∉ earned := by simpa using hearn
            have htake : defAwardablePure badges earned metrics d = true := by
              simp [defAwardablePure, hfind, hnin, hcond]
            rw [List.filter_cons, htake]
            simp only [if_true, List.map_cons]
            rw [hcodes]
          · rw [hpts, applyAward_points db uid b hUp]
            have hsum : sumPosPoints (⟨d.code, d.name, b.pointsAwarded⟩ :: res) =
                (if 0 < b.pointsAwarded then b.pointsAwarded + sumPosPoints res
                 else sumPosPoints res) := rfl
            rw [hsum]
            by_cases hpa : 0 < b.pointsAwarded
            · simp only [if_pos hpa]
              ring
            · simp only [if_neg hpa]
              ring

/-- C1: under the seeded badge catalog (distinct row ids, every definition
present) and an existing user_points row, a run of checkAndAwardBadges
awards exactly the definitions whose threshold predicate holds on the
user's aggregated counters and that the user has not already earned, and
adds each newly awarded badge's positive pointsAwarded to totalPoints. -/
theorem checkAndAwardBadges_spec (db : Db) (uid : Nat)
    (hIds : (db.badges.map (fun b => b.id)).Nodup)
    (hSeed : ∀ d, d ∈ BADGE_DEFINITIONS →
      (db.badges.find? (fun b => b.code == d.code)).isSome = true)
    (hUp : (db.userPoints.find? (fun up => up.userId == uid)).isSome = true) :
    (checkAndAwardBadges db uid).1.map (fun aw => aw.code) =
      (BADGE_DEFINITIONS.filter (fun d => !(defEarned db uid d) &&
        evalCond d.cond (getUserBadgeMetrics db uid))).map (fun d => d.code) ∧
    totalPointsOf (checkAndAwardBadges db uid).2 uid =
      totalPointsOf db uid + sumPosPoints (checkAndAwardBadges db uid).1 := by
  have hCodes : (BADGE_DEFINITIONS.map (fun d => d.code)).Nodup := by decide
  have hSync : ∀ d, d ∈ BADGE_DEFINITIONS → ∀ b,
      db.badges.find? (fun x => x.code == d.code) = some b →
      userHasBadge db uid b.id = (earnedList db uid).contains b.id := by
    intro d _ b _
    rw [earned_contains_eq]
  obtain ⟨res, dbF, heq, hcodes, hpts⟩ :=
    awardLoop_none_award uid (getUserBadgeMetrics db uid) db.badges BADGE_DEFINITIONS
      (earnedList db uid) db 0 hIds hCodes hSync hUp
  have hck : checkAndAwardBadges db uid = (res, dbF) := by
    unfold checkAndAwardBadges checkAndAwardBadgesWith
    rw [heq]
  rw [hck]
  refine ⟨?_, hpts⟩
  rw [hcodes]
  apply congrArg
  apply List.filter_congr
  intro d hd
  have hsome := hSeed d hd
  cases hfb : db.badges.find? (fun b => b.code == d.code) with
  | none =>
    rw [hfb] at hsome
    simp at hsome
  | some b =>
    have he : decide (b.id ∈ earnedList db uid) = userHasBadge db uid b.id := by
      rw [← earned_contains_eq db uid b.id]
      show decide (b.id ∈ earnedList db uid) = List.elem b.id (earnedList db uid)
      rw [List.elem_eq_mem]
    simp only [defAwardablePure, defEarned, hfb]
    rw [← he]
    simp

/-- C1 witness: on the seeded catalog with one consumed interaction, the run
awards exactly first_action and first_consume and credits their 25-point
bonuses. -/
theorem checkAndAwardBadges_witness :
    (checkAndAwardBadges dbOneConsumed 1).1.map (fun aw => aw.code) =
      ["first_action", "first_consume"] ∧
    totalPointsOf (checkAndAwardBadges dbOneConsumed 1).2 1 = 50 := by
  have h := checkAndAwardBadges_spec dbOneConsumed 1 (by decide) (by decide) (by decide)
  have hm : getUserBadgeMetrics dbOneConsumed 1 = ⟨0, 0, 0, 1, 0, 0, 0, 1, 1, 100⟩ := by
    have hc : ((dbOneConsumed.metrics.filter (fun r => r.userId == 1)).foldl
        countInteraction (0, 0, 0, 0)) = (1, 0, 0, 0) := by decide
    have hp : totalPointsOf dbOneConsumed 1 = 0 := by decide
    have hs : currentStreakOf dbOneConsumed 1 = 0 := by decide
    simp only [getUserBadgeMetrics, hc, hp, hs]
    norm_num [BadgeMetrics.mk.injEq]
  have hrun : checkAndAwardBadges dbOneConsumed 1 =
      ([⟨"first_action", "First Steps", 25⟩, ⟨"first_consume", "Clean Plate", 25⟩],
        { userPoints := [⟨1, 50, 0, 0⟩], badges := badgeCatalog,
          userBadges := [⟨1, 1⟩, ⟨1, 3⟩], metrics := [⟨none, 1, 0, 1, "consumed"⟩] }) := by
    unfold checkAndAwardBadges checkAndAwardBadgesWith
    rw [hm]
    decide
  refine ⟨?_, ?_⟩
  · rw [hrun]
    decide
  · rw [h.2, hrun]
    decide

end EcoPlate
